import Mathlib

/-!
Shallow embedding of the TermClock terminal-dashboard core
(`src/api.rs`, `src/config.rs`, `src/main.rs`, `src/model.rs`, `src/ui.rs`)
and proofs about its data-source resolution, refresh scheduling, and
procedural rendering.  Network/file effects are modelled as explicit
environment oracles; floating-point arithmetic of the source (`f64`) is
modelled exactly over `ℚ` (all values manipulated by the gauge and parser
are small decimals where the two semantics agree), and `f64::round`
(round half away from zero) is `roundAway` below.
-/

namespace TermClock

/-- Round half away from zero, the behaviour of Rust's `f64::round`. -/
def roundAway (q : ℚ) : ℤ := if 0 ≤ q then ⌊q + 1/2⌋ else -⌊-q + 1/2⌋

/-- Drop all trailing occurrences of `c`, as `str::trim_end_matches(c)`. -/
def stripEnd (l : List Char) (c : Char) : List Char :=
  (l.reverse.dropWhile (fun x => x = c)).reverse

/-- Strip leading and trailing whitespace, as `str::trim`. -/
def trimChars (l : List Char) : List Char :=
  ((l.dropWhile Char.isWhitespace).reverse.dropWhile Char.isWhitespace).reverse

/-- The marker stripping done by `parse_temp_celsius` (ui.rs line 181):
`s.trim().trim_end_matches('C').trim_end_matches('°').trim_end_matches('℃').trim()`. -/
def stripTempMarkers (l : List Char) : List Char :=
  trimChars (stripEnd (stripEnd (stripEnd (trimChars l) 'C') '°') '℃')

/-- Numeric value of a digit string (most significant first). -/
def digitsVal (l : List Char) : ℕ :=
  l.foldl (fun acc c => acc * 10 + (c.toNat - '0'.toNat)) 0

/-- Unsigned decimal-numeral part of Rust's `f64::from_str` grammar:
digits, optionally followed by `.` and further digits (at least one digit
overall).  The exotic `f64` forms (`inf`, `NaN`, exponents) never occur in
the strings this program parses. -/
def parseUnsignedDec (l : List Char) : Option ℚ :=
  let ip := l.takeWhile Char.isDigit
  let rest := l.dropWhile Char.isDigit
  match rest with
  | [] => if ip = [] then none else some (digitsVal ip)
  | c :: frac =>
    if c = '.' then
      if frac.all Char.isDigit ∧ (ip ≠ [] ∨ frac ≠ []) then
        some ((digitsVal ip : ℚ) + (digitsVal frac : ℚ) / (10 : ℚ) ^ frac.length)
      else none
    else none

/-- Signed decimal parse, modelling `str::parse::<f64>()` on the decimal
fragment of its grammar. -/
def parseDecimal (l : List Char) : Option ℚ :=
  match l with
  | [] => none
  | c :: rest =>
    if c = '-' then (parseUnsignedDec rest).map (fun q => -q)
    else if c = '+' then parseUnsignedDec rest
    else parseUnsignedDec (c :: rest)

/-- Model of `str::parse::<i32>()`: optional sign, digits, `i32` range. -/
def parseInt32 (l : List Char) : Option ℤ :=
  match l with
  | [] => none
  | c :: rest =>
    if c = '-' then
      if rest ≠ [] ∧ rest.all Char.isDigit ∧ (digitsVal rest : ℤ) ≤ 2 ^ 31 then
        some (-(digitsVal rest : ℤ))
      else none
    else if c = '+' then
      if rest ≠ [] ∧ rest.all Char.isDigit ∧ (digitsVal rest : ℤ) < 2 ^ 31 then
        some (digitsVal rest)
      else none
    else
      if (c :: rest).all Char.isDigit ∧ (digitsVal (c :: rest) : ℤ) < 2 ^ 31 then
        some (digitsVal (c :: rest))
      else none

/-- Saturating cast of an integer into the `i32` range, the behaviour of
Rust's `as i32` on a rounded `f64`. -/
def i32Sat (z : ℤ) : ℤ := max (-(2 ^ 31)) (min z (2 ^ 31 - 1))

/-- `parse_temp_celsius` (ui.rs lines 179-188): strip the temperature
markers, try `f64` parse + round, else fall back to `i32` parse. -/
def parse_temp_celsius (s : String) : Option ℤ :=
  let t := stripTempMarkers s.toList
  match parseDecimal t with
  | some q => some (i32Sat (roundAway q))
  | none => parseInt32 t

/-! ## Gauge renderer (ui.rs `draw_temperature_widget`, lines 80-134) -/

/-- Fixed lower bound of the gauge's display range (`min_c = -10.0`). -/
def gaugeMin : ℚ := -10

/-- Fixed upper bound of the gauge's display range (`max_c = 50.0`). -/
def gaugeMax : ℚ := 50

/-- Normalized gauge position:
`parsed.map(|v| ((v - min_c)/(max_c - min_c)).clamp(0.0, 1.0)).unwrap_or(0.0)`. -/
def gauge_pos (parsed : Option ℤ) : ℚ :=
  match parsed with
  | some v => max 0 (min (((v : ℚ) - gaugeMin) / (gaugeMax - gaugeMin)) 1)
  | none => 0

/-- Bar length: `(pos * usable as f64).round() as usize`. -/
def bar_len (parsed : Option ℤ) (usable : ℕ) : ℕ :=
  (roundAway (gauge_pos parsed * usable)).toNat

/-- The fixed tick degrees `[-10, 0, 10, 20, 30, 40, 50]`. -/
def tick_degs : List ℤ := [-10, 0, 10, 20, 30, 40, 50]

/-- Tick index: `t = (deg - min_c)/(max_c - min_c); (t * usable).round() as usize`. -/
def tick_idx (deg : ℤ) (usable : ℕ) : ℕ :=
  (roundAway (((deg : ℚ) - gaugeMin) / (gaugeMax - gaugeMin) * usable)).toNat

/-- Positions at which a tick glyph is actually drawn: the code sets
`tick_chars[idx] = '┴'` and records `idx` only under the guard `idx < usable`. -/
def tick_positions (usable : ℕ) : List ℕ :=
  (tick_degs.map (fun d => tick_idx d usable)).filter (fun i => i < usable)

/-- The tick baseline row: `'─'` everywhere, a tick glyph at each in-range index. -/
def tick_row (usable : ℕ) : List Char :=
  tick_degs.foldl
    (fun row d =>
      let idx := tick_idx d usable
      if idx < usable then row.set idx '┴' else row)
    (List.replicate usable '─')

/-- Decimal label text of a tick degree, `format!("{}", deg)`. -/
def label_str (deg : ℤ) : List Char := (toString deg).toList

/-- Start column of a tick label:
`idx.saturating_sub(s.len()/2).min(usable.saturating_sub(s.len()))`
(ℕ subtraction is saturating). -/
def label_start (deg : ℤ) (idx usable : ℕ) : ℕ :=
  min (idx - (label_str deg).length / 2) (usable - (label_str deg).length)

/-- Overlay text for the current value: `" {v}℃"`, or `" --"` when absent. -/
def value_label (parsed : Option ℤ) : List Char :=
  match parsed with
  | some v => (" " ++ toString v ++ "℃").toList
  | none => " --".toList

/-- Column at which the value overlay starts:
`bar_len.min(usable.saturating_sub(label.len()))`. -/
def overlay_at (parsed : Option ℤ) (usable : ℕ) : ℕ :=
  min (bar_len parsed usable) (usable - (value_label parsed).length)

/-- Write `s` into `base` starting at index `i`; writes beyond the end are
dropped, as the code's `if overlay_at + i < usable` guard does. -/
def writeChars : List Char → ℕ → List Char → List Char
  | base, _, [] => base
  | base, i, c :: cs => writeChars (base.set i c) (i + 1) cs

/-- The bottom gauge row: a bar of `'━'` of length `bar_len`, blanks after,
with the value label overlaid at `overlay_at`. -/
def bottom_row (parsed : Option ℤ) (usable : ℕ) : List Char :=
  let base := (List.range usable).map (fun i => if i < bar_len parsed usable then '━' else ' ')
  writeChars base (overlay_at parsed usable) (value_label parsed)

/-! ## Basic lemmas about `roundAway` and the gauge -/

theorem roundAway_natCast (w : ℕ) : roundAway (w : ℚ) = w := by
  unfold roundAway
  rw [if_pos (by positivity)]
  rw [Int.floor_eq_iff]
  constructor
  · push_cast; linarith
  · push_cast; linarith

theorem roundAway_zero : roundAway 0 = 0 := by
  unfold roundAway
  norm_num

theorem gauge_pos_none : gauge_pos none = 0 := rfl

theorem gauge_pos_low {r : ℤ} (h : r ≤ -10) : gauge_pos (some r) = 0 := by
  simp only [gauge_pos, gaugeMin, gaugeMax]
  have hq : ((r : ℚ) - (-10)) / (50 - (-10)) ≤ 0 := by
    apply div_nonpos_of_nonpos_of_nonneg
    · have : (r : ℚ) ≤ -10 := by exact_mod_cast h
      linarith
    · norm_num
  have hmin : min (((r : ℚ) - (-10)) / (50 - (-10))) 1 ≤ 0 :=
    le_trans (min_le_left _ _) hq
  simp only [max_eq_left hmin]

theorem gauge_pos_high {r : ℤ} (h : 50 ≤ r) : gauge_pos (some r) = 1 := by
  simp only [gauge_pos, gaugeMin, gaugeMax]
  have hq : (1 : ℚ) ≤ ((r : ℚ) - (-10)) / (50 - (-10)) := by
    rw [le_div_iff₀ (by norm_num)]
    have : (50 : ℚ) ≤ (r : ℚ) := by exact_mod_cast h
    linarith
  rw [min_eq_right hq]
  norm_num

theorem bar_len_none (w : ℕ) : bar_len none w = 0 := by
  unfold bar_len
  rw [gauge_pos_none, zero_mul, roundAway_zero]
  rfl

theorem bar_len_low {r : ℤ} (w : ℕ) (h : r ≤ -10) : bar_len (some r) w = 0 := by
  unfold bar_len
  rw [gauge_pos_low h, zero_mul, roundAway_zero]
  rfl

theorem bar_len_high {r : ℤ} (w : ℕ) (h : 50 ≤ r) : bar_len (some r) w = w := by
  unfold bar_len
  rw [gauge_pos_high h, one_mul, roundAway_natCast]
  exact Int.toNat_natCast w

theorem tick_idx_fifty (w : ℕ) : tick_idx 50 w = w := by
  unfold tick_idx gaugeMin gaugeMax
  norm_num
  rw [roundAway_natCast]
  exact Int.toNat_natCast w

/-! ## Parsing lemmas -/

theorem parseUnsignedDec_digits {l : List Char} (hne : l ≠ [])
    (hdig : l.all Char.isDigit = true) : parseUnsignedDec l = some (digitsVal l) := by
  have hall : ∀ x ∈ l, Char.isDigit x = true := by
    simpa [List.all_eq_true] using hdig
  unfold parseUnsignedDec
  rw [List.takeWhile_eq_self_iff.mpr hall, List.dropWhile_eq_nil_iff.mpr hall]
  simp [hne]

theorem parseInt32_none_of_parseDecimal_none {l : List Char}
    (h : parseDecimal l = none) : parseInt32 l = none := by
  match l with
  | [] => rfl
  | c :: rest =>
    simp only [parseDecimal] at h
    simp only [parseInt32]
    by_cases hm : c = '-'
    · rw [if_pos hm] at h ⊢
      rw [Option.map_eq_none'] at h
      rw [if_neg]
      rintro ⟨hne, hdig, -⟩
      rw [parseUnsignedDec_digits hne hdig] at h
      exact Option.some_ne_none _ h
    · rw [if_neg hm] at h ⊢
      by_cases hp : c = '+'
      · rw [if_pos hp] at h ⊢
        rw [if_neg]
        rintro ⟨hne, hdig, -⟩
        rw [parseUnsignedDec_digits hne hdig] at h
        exact Option.some_ne_none _ h
      · rw [if_neg hp] at h ⊢
        rw [if_neg]
        rintro ⟨hdig, -⟩
        rw [parseUnsignedDec_digits (List.cons_ne_nil c rest) hdig] at h
        exact Option.some_ne_none _ h

/-- C4 counterexample: the claim says tick marks for all seven of
−10, 0, 10, 20, 30, 40, 50 are drawn at index round(((deg + 10) / 60) × w).
At usable width 30 the 50-degree tick's computed index is 30, which fails
the code's `idx < usable` guard, so that tick is never drawn: its index is
not among the drawn tick positions. -/
theorem C4_counterexample : tick_idx 50 30 = 30 ∧ (30 : ℕ) ∉ tick_positions 30 := by
  refine ⟨tick_idx_fifty 30, ?_⟩
  intro h
  have := List.of_mem_filter h
  simp at this

/-- C4 (amended): for every optional integer reading r and usable gauge
width w, the normalized position is t = clamp((r − (−10)) / 60, 0, 1) with
t = 0 when the reading is absent, so readings outside [−10, 50] clamp to an
empty or full bar without error; the bar length is round(t × w); tick marks
are placed at index round(((deg + 10) / 60) × w) by the same linear mapping
but a tick is drawn only when that index is < w — in particular the
50-degree tick's index always equals w and is therefore always clipped,
while the remaining ticks are drawn whenever their index is in range; and
each numeric label's start column is clamped to w − label_length so no
label overflows the usable width. -/
theorem C4_gauge_amended (r : ℤ) (w : ℕ) :
    gauge_pos none = 0
    ∧ (r ≤ -10 → gauge_pos (some r) = 0 ∧ bar_len (some r) w = 0)
    ∧ (50 ≤ r → gauge_pos (some r) = 1 ∧ bar_len (some r) w = w)
    ∧ tick_idx 50 w = w
    ∧ (w : ℕ) ∉ tick_positions w
    ∧ (∀ d ∈ tick_degs, tick_idx d w < w → tick_idx d w ∈ tick_positions w)
    ∧ (∀ d : ℤ, ∀ idx : ℕ, (label_str d).length ≤ w →
        label_start d idx w + (label_str d).length ≤ w) := by
  refine ⟨gauge_pos_none, ?_, ?_, tick_idx_fifty w, ?_, ?_, ?_⟩
  · intro h
    exact ⟨gauge_pos_low h, bar_len_low w h⟩
  · intro h
    exact ⟨gauge_pos_high h, bar_len_high w h⟩
  · intro h
    have := List.of_mem_filter h
    simp at this
  · intro d hd hlt
    exact List.mem_filter_of_mem (List.mem_map_of_mem _ hd) (by simpa using hlt)
  · intro d idx hle
    have h1 : label_start d idx w ≤ w - (label_str d).length := min_le_right _ _
    omega

/-- C4 witness: a reading of 60 (above the display range) clamps to a full
bar at usable width 30. -/
theorem C4_witness : gauge_pos (some 60) = 1 ∧ bar_len (some 60) 30 = 30 :=
  (C4_gauge_amended 60 30).2.2.1 (by norm_num)

/-- C10: the gauge reading is obtained by re-parsing the cached display
string: trailing 'C', '°' and '℃' markers are stripped, the remainder is
parsed as a decimal number and rounded ("23.4℃" yields 23), and a string
that does not parse as a decimal number — including the sentinel "--" —
yields no reading (the `i32` fallback parse can never succeed where the
decimal parse failed), giving an empty bar with the " --" overlay label. -/
theorem C10_temp_reparse :
    parse_temp_celsius "23.4℃" = some 23
    ∧ parse_temp_celsius "--" = none
    ∧ (∀ s : String, parse_temp_celsius s = none ↔
        parseDecimal (stripTempMarkers s.toList) = none)
    ∧ (∀ w : ℕ, bar_len none w = 0)
    ∧ value_label none = " --".toList := by
  refine ⟨?_, ?_, ?_, bar_len_none, rfl⟩
  · have h1 : stripTempMarkers "23.4℃".toList = ['2', '3', '.', '4'] := by decide
    have h2 : parseDecimal ['2', '3', '.', '4'] = some (117/5 : ℚ) := by
      simp +decide [parseDecimal, parseUnsignedDec, digitsVal, List.takeWhile,
        List.dropWhile]
      norm_num
    have h3 : roundAway (117/5 : ℚ) = 23 := by
      rw [roundAway, if_pos (by norm_num), Int.floor_eq_iff]
      norm_num
    simp only [parse_temp_celsius, h1, h2, h3]
    norm_num [i32Sat]
  · have h1 : stripTempMarkers "--".toList = ['-', '-'] := by decide
    have h2 : parseDecimal ['-', '-'] = none := by decide
    simp only [parse_temp_celsius, h1, h2]
    decide
  · intro s
    simp only [parse_temp_celsius]
    cases h : parseDecimal (stripTempMarkers s.toList) with
    | none =>
      simp only [h]
      constructor
      · intro _; trivial
      · intro _
        exact parseInt32_none_of_parseDecimal_none h
    | some q => simp

/-! ## Big-time glyph renderer (ui.rs `render_big_time`, lines 191-357;
an identical copy lives in main.rs lines 445-611) -/

/-- Rows of a glyph, written as the source writes them. -/
def glyphRows (rs : List String) : List (List Char) := rs.map String.toList

/-- The fixed 7-row, 7-column font table `FONT`: digits 0-9, colon, blank. -/
def FONT : List (List (List Char)) := [
  glyphRows ["  ███  ", " █   █ ", " █  ██ ", " █ █ █ ", " ██  █ ", " █   █ ", "  ███  "],
  glyphRows ["   █   ", "  ██   ", "   █   ", "   █   ", "   █   ", "   █   ", "  ███  "],
  glyphRows ["  ███  ", " █   █ ", "     █ ", "   ██  ", "  █    ", " █     ", " █████ "],
  glyphRows [" █████ ", "     █ ", "    ██ ", "   ███ ", "     █ ", " █   █ ", "  ███  "],
  glyphRows ["    ██ ", "   █ █ ", "  █  █ ", " █   █ ", " ██████", "     █ ", "     █ "],
  glyphRows [" █████ ", " █     ", " ████  ", "     █ ", "     █ ", " █   █ ", "  ███  "],
  glyphRows ["  ███  ", " █     ", " █     ", " ████  ", " █   █ ", " █   █ ", "  ███  "],
  glyphRows [" █████ ", "     █ ", "    █  ", "   █   ", "  █    ", "  █    ", "  █    "],
  glyphRows ["  ███  ", " █   █ ", " █   █ ", "  ███  ", " █   █ ", " █   █ ", "  ███  "],
  glyphRows ["  ███  ", " █   █ ", " █   █ ", "  ████ ", "     █ ", "     █ ", "  ███  "],
  glyphRows ["       ", "   ░   ", "       ", "       ", "       ", "   ░   ", "       "],
  glyphRows ["       ", "       ", "       ", "       ", "       ", "       ", "       "]]

/-- The character-to-glyph-index match: digits map to 0-9, ':' to 10, and
any other character to 11 (the blank glyph). -/
def glyphIndex (c : Char) : ℕ :=
  if c = '0' then 0 else if c = '1' then 1 else if c = '2' then 2
  else if c = '3' then 3 else if c = '4' then 4 else if c = '5' then 5
  else if c = '6' then 6 else if c = '7' then 7 else if c = '8' then 8
  else if c = '9' then 9 else if c = ':' then 10 else 11

/-- `FONT[idx]` for the computed index (always in range). -/
def glyphOf (c : Char) : List (List Char) := FONT.getD (glyphIndex c) []

/-- The two-space gap pushed between adjacent glyphs. -/
def gapCols : List Char := [' ', ' ']

/-- One step of the base-row construction: for each of the 7 rows, push the
gap if the row is nonempty, then push the glyph row. -/
def appendGlyph (rows : List (List Char)) (g : List (List Char)) : List (List Char) :=
  List.zipWith (fun row line => if row.isEmpty then line else row ++ gapCols ++ line) rows g

/-- The 7 unscaled rows accumulated over the input string. -/
def base_rows (time : List Char) : List (List Char) :=
  time.foldl (fun rows c => appendGlyph rows (glyphOf c)) (List.replicate 7 [])

/-- Horizontal scaling: each character replicated `sx` times in place. -/
def hscale (sx : ℕ) (row : List Char) : List Char :=
  row.flatMap (fun c => List.replicate sx c)

/-- `render_big_time`: build the 7 base rows, scale each horizontally by
`scale_x.max(1)` and emit each scaled row `scale_y.max(1)` times. -/
def render_big_time (time : List Char) (scale_x scale_y : ℕ) : List (List Char) :=
  let sx := max scale_x 1
  let sy := max scale_y 1
  (base_rows time).flatMap (fun row => List.replicate sy (hscale sx row))

/-- Length of each base row after `k` glyphs have been appended. -/
def rowLen (k : ℕ) : ℕ := if k = 0 then 0 else 9 * k - 2

theorem FONT_wf : ∀ g ∈ FONT, g.length = 7 ∧ ∀ r ∈ g, r.length = 7 := by decide

theorem glyphIndex_lt (c : Char) : glyphIndex c < 12 := by
  unfold glyphIndex
  repeat' split
  all_goals omega

theorem glyphOf_wf (c : Char) : (glyphOf c).length = 7 ∧ ∀ r ∈ glyphOf c, r.length = 7 := by
  unfold glyphOf
  have hlt : glyphIndex c < FONT.length := by
    have h12 : FONT.length = 12 := by decide
    rw [h12]
    exact glyphIndex_lt c
  rw [List.getD_eq_getElem FONT [] hlt]
  exact FONT_wf _ (List.getElem_mem hlt)

theorem sum_map_const {α : Type} (l : List α) (n : ℕ) :
    (l.map fun _ => n).sum = l.length * n := by
  induction l with
  | nil => simp
  | cons a t ih => simp [ih, Nat.succ_mul, Nat.add_comm]

theorem hscale_length (sx : ℕ) (row : List Char) :
    (hscale sx row).length = sx * row.length := by
  induction row with
  | nil => simp [hscale]
  | cons c t ih =>
    simp only [hscale, List.flatMap_cons, List.length_append,
      List.length_replicate, List.length_cons] at ih ⊢
    rw [ih]
    ring

theorem appendGlyph_spec {rows g : List (List Char)} {k : ℕ}
    (h7 : rows.length = 7) (hg7 : g.length = 7)
    (hrow : ∀ r ∈ rows, r.length = rowLen k)
    (hgrow : ∀ r ∈ g, r.length = 7) :
    (appendGlyph rows g).length = 7 ∧
      ∀ r ∈ appendGlyph rows g, r.length = rowLen (k + 1) := by
  constructor
  · simp [appendGlyph, h7, hg7]
  · intro r hr
    rw [List.mem_iff_getElem] at hr
    obtain ⟨i, hi, hr⟩ := hr
    simp only [appendGlyph] at hr
    rw [List.getElem_zipWith] at hr
    have hilen : i < rows.length ∧ i < g.length := by
      simp [appendGlyph] at hi
      omega
    have hrowi : rows[i].length = rowLen k := hrow _ (List.getElem_mem hilen.1)
    have hgi : g[i].length = 7 := hgrow _ (List.getElem_mem hilen.2)
    by_cases hk : k = 0
    · have hnil : rows[i] = [] := by
        apply List.eq_nil_of_length_eq_zero
        rw [hrowi, hk]
        rfl
      rw [← hr, hnil]
      simp [rowLen, hgi, hk]
    · have hpos : 0 < rows[i].length := by
        rw [hrowi]
        unfold rowLen
        rw [if_neg hk]
        omega
      have hne2 : rows[i].isEmpty = false := by
        cases hwe : rows[i] with
        | nil => rw [hwe] at hpos; simp at hpos
        | cons a b => rfl
      rw [← hr, if_neg (by rw [hne2]; simp)]
      have hk1 : rowLen k = 9 * k - 2 := by unfold rowLen; rw [if_neg hk]
      have hk2 : rowLen (k + 1) = 9 * (k + 1) - 2 := by unfold rowLen; simp
      simp only [List.length_append, hgi, hrowi, hk1, hk2, gapCols,
        List.length_cons, List.length_nil]
      have hk9 : 1 ≤ k := Nat.one_le_iff_ne_zero.mpr hk
      omega

theorem base_rows_aux (time : List Char) :
    ∀ (rows : List (List Char)) (k : ℕ),
      rows.length = 7 → (∀ r ∈ rows, r.length = rowLen k) →
      (time.foldl (fun rows c => appendGlyph rows (glyphOf c)) rows).length = 7 ∧
        ∀ r ∈ time.foldl (fun rows c => appendGlyph rows (glyphOf c)) rows,
          r.length = rowLen (k + time.length) := by
  induction time with
  | nil =>
    intro rows k h7 hrow
    simpa using ⟨h7, hrow⟩
  | cons c cs ih =>
    intro rows k h7 hrow
    rw [List.foldl_cons]
    have hg := glyphOf_wf c
    have hstep := appendGlyph_spec h7 hg.1 hrow hg.2
    have := ih (appendGlyph rows (glyphOf c)) (k + 1) hstep.1 hstep.2
    refine ⟨this.1, ?_⟩
    have harith : k + 1 + cs.length = k + (c :: cs).length := by
      simp
      omega
    rw [← harith]
    exact this.2

theorem base_rows_spec (time : List Char) :
    (base_rows time).length = 7 ∧
      ∀ r ∈ base_rows time, r.length = rowLen time.length := by
  have h := base_rows_aux time (List.replicate 7 []) 0 (by simp) (by simp [rowLen])
  simpa [base_rows] using h

/-- C3 counterexample: the claim says each rendered line of "00" at
horizontal scale 2 has length (7 × 2 + 2) × 2 − 2 = 30; the code scales
the 2-column inter-glyph gap along with the glyphs, producing lines of
length ((7 + 2) × 2 − 2) × 2 = 32. -/
theorem C3_counterexample :
    ((render_big_time ("00".toList) 2 1).map List.length = List.replicate 7 32)
      ∧ (7 * 2 + 2) * 2 - 2 = 30 := by
  constructor
  · decide
  · norm_num

/-- C3 (amended): for every nonempty input string of n characters and scale
factors sx ≥ 1 and sy ≥ 1, the big-time renderer produces exactly 7 × sy
lines, each of length (7 × sx + 2 × sx) × n − 2 × sx — the per-glyph width
7 and the fixed 2-column inter-glyph gap (no gap before the first glyph)
are both scaled by sx, because the gap is inserted before horizontal
scaling — all lines of equal length; each character maps to its fixed
7-row, 7-column glyph, with the blank glyph for any unrecognized
character. -/
theorem C3_render_amended (time : List Char) (sx sy : ℕ)
    (hsx : 1 ≤ sx) (hsy : 1 ≤ sy) (hne : time ≠ []) :
    (render_big_time time sx sy).length = 7 * sy
    ∧ (∀ line ∈ render_big_time time sx sy,
        line.length = (7 * sx + 2 * sx) * time.length - 2 * sx)
    ∧ (∀ c : Char, (glyphOf c).length = 7 ∧ ∀ r ∈ glyphOf c, r.length = 7)
    ∧ (∀ c : Char, c ∉ ("0123456789:".toList) → glyphOf c = FONT.getD 11 []) := by
  have hb := base_rows_spec time
  have hmx : max sx 1 = sx := Nat.max_eq_left hsx
  have hmy : max sy 1 = sy := Nat.max_eq_left hsy
  refine ⟨?_, ?_, glyphOf_wf, ?_⟩
  · rw [render_big_time]
    simp only [hmx, hmy, List.length_flatMap, Function.comp_def, List.length_replicate]
    rw [sum_map_const, hb.1]
  · intro line hline
    rw [render_big_time] at hline
    simp only [hmx, hmy, List.mem_flatMap] at hline
    obtain ⟨row, hrow, hmem⟩ := hline
    have heq : line = hscale sx row := List.eq_of_mem_replicate hmem
    have hlen : row.length = rowLen time.length := hb.2 row hrow
    have hn : time.length ≠ 0 := fun h => hne (List.eq_nil_of_length_eq_zero h)
    rw [heq, hscale_length, hlen]
    unfold rowLen
    rw [if_neg hn]
    rw [Nat.mul_sub]
    have h1 : sx * (9 * time.length) = (7 * sx + 2 * sx) * time.length := by ring
    have h2 : sx * 2 = 2 * sx := by ring
    rw [h1, h2]
  · intro c hc
    have h0 : c ≠ '0' := fun h => hc (by rw [h]; decide)
    have h1 : c ≠ '1' := fun h => hc (by rw [h]; decide)
    have h2 : c ≠ '2' := fun h => hc (by rw [h]; decide)
    have h3 : c ≠ '3' := fun h => hc (by rw [h]; decide)
    have h4 : c ≠ '4' := fun h => hc (by rw [h]; decide)
    have h5 : c ≠ '5' := fun h => hc (by rw [h]; decide)
    have h6 : c ≠ '6' := fun h => hc (by rw [h]; decide)
    have h7 : c ≠ '7' := fun h => hc (by rw [h]; decide)
    have h8 : c ≠ '8' := fun h => hc (by rw [h]; decide)
    have h9 : c ≠ '9' := fun h => hc (by rw [h]; decide)
    have hcol : c ≠ ':' := fun h => hc (by rw [h]; decide)
    unfold glyphOf glyphIndex
    simp [h0, h1, h2, h3, h4, h5, h6, h7, h8, h9, hcol]

/-- C3 witness: rendering "12:30:45" at scales sx = 2, sy = 3 gives
7 × 3 = 21 lines, each of length (7 × 2 + 2 × 2) × 8 − 2 × 2 = 140. -/
theorem C3_witness :
    (render_big_time ("12:30:45".toList) 2 3).length = 7 * 3
    ∧ ∀ line ∈ render_big_time ("12:30:45".toList) 2 3,
        line.length = (7 * 2 + 2 * 2) * ("12:30:45".toList).length - 2 * 2 := by
  have h := C3_render_amended ("12:30:45".toList) 2 3 (by norm_num) (by norm_num) (by decide)
  exact ⟨h.1, h.2.1⟩

/-! ## Configuration resolver (config.rs, model.rs)

The YAML document is abstracted as an oracle `YamlMap` giving, per key, the
results of `serde_yaml::Value::as_str` and `as_i64` — exactly the two views
`load_yaml_config` uses.  `as_i64` values satisfy the `i64` bound; only the
`u16` truncating cast depends on it, and all concrete instances below stay
far below `2^63`. -/

structure YamlMap where
  getStr : String → Option String
  getI64 : String → Option ℤ

/-- String-level wrapper of `trimChars`, modelling Rust's `str::trim`. -/
def trimString (s : String) : String := String.mk (trimChars s.toList)

/-- `get_string`: `as_str`, trimmed, empty-after-trim treated as absent. -/
def yamlGetString (m : YamlMap) (key : String) : Option String :=
  (m.getStr key).bind (fun s =>
    let t := trimString s
    if t = "" then none else some t)

/-- The shared positivity filter of `get_usize` / `get_u16` / `get_u64`:
`as_i64` then `n > 0`. -/
def yamlGetPos (m : YamlMap) (key : String) : Option ℤ :=
  (m.getI64 key).bind (fun n => if 0 < n then some n else none)

/-- `get_usize`: a positive `i64` cast to `usize` keeps its value. -/
def yamlGetUsize (m : YamlMap) (key : String) : Option ℕ :=
  (yamlGetPos m key).map Int.toNat

/-- `get_u16`: `n as u16` truncates modulo 2^16. -/
def yamlGetU16 (m : YamlMap) (key : String) : Option ℕ :=
  (yamlGetPos m key).map (fun n => n.toNat % 65536)

/-- `get_u64`: a positive `i64` cast to `u64` keeps its value. -/
def yamlGetU64 (m : YamlMap) (key : String) : Option ℕ :=
  (yamlGetPos m key).map Int.toNat

/-- `FileConfig` (model.rs lines 56-66). -/
structure FileConfig where
  api_base_url : Option String
  device_code : Option String
  temp_refresh_interval : Option ℕ
  todo_ip_filter : Option String
  todos_file : Option String
  todo_task_max_chars : Option ℕ
  todo_limit : Option ℕ
  main_window_percent : ℕ

/-- `load_yaml_config` (config.rs lines 8-50) applied to a successfully
read and parsed document. -/
def load_yaml_config (m : YamlMap) : FileConfig :=
  { api_base_url := yamlGetString m "api_base_url"
    device_code := yamlGetString m "device_code"
    temp_refresh_interval := yamlGetU64 m "temp_refresh_interval"
    todo_ip_filter := yamlGetString m "todo_ip_filter"
    todos_file := yamlGetString m "todos_file"
    todo_task_max_chars := yamlGetUsize m "todo_task_max_chars"
    todo_limit := yamlGetUsize m "todo_limit"
    main_window_percent := (yamlGetU16 m "main_window_percent").getD 80 }

/-- The `ratatui` colours the program uses, by name. -/
inductive TermColor
  | black | red | green | yellow | blue | magenta | cyan | white
  | gray | darkGray | lightRed | lightGreen | lightYellow | lightBlue
  | lightMagenta | lightCyan
  | rgb (r g b : ℕ)
deriving DecidableEq

/-- `parse_color` (config.rs lines 139-160). -/
def parse_color (name : String) : Option TermColor :=
  let n := name.map Char.toLower
  if n = "black" then some .black
  else if n = "red" then some .red
  else if n = "green" then some .green
  else if n = "yellow" ∨ n = "yello" then some .yellow
  else if n = "blue" then some .blue
  else if n = "magenta" then some .magenta
  else if n = "cyan" then some .cyan
  else if n = "white" then some .white
  else if n = "gray" ∨ n = "grey" then some .gray
  else if n = "darkgray" ∨ n = "darkgrey" then some .darkGray
  else if n = "lightred" then some .lightRed
  else if n = "lightgreen" then some .lightGreen
  else if n = "lightyellow" then some .lightYellow
  else if n = "lightblue" then some .lightBlue
  else if n = "lightmagenta" then some .lightMagenta
  else if n = "lightcyan" then some .lightCyan
  else if n = "orange" then some (.rgb 255 165 0)
  else none

/-- `str::parse::<u16>()`: optional leading '+', digits, below 2^16. -/
def parse_u16 (s : String) : Option ℕ :=
  let l := s.toList
  let ds := if l.head? = some '+' then l.tail else l
  if ds ≠ [] ∧ ds.all Char.isDigit ∧ digitsVal ds < 65536 then some (digitsVal ds)
  else none

/-- `Config` (model.rs lines 69-90). -/
structure Config where
  time_scale_x : ℕ
  time_scale_y : ℕ
  date_scale_x : ℕ
  time_color : TermColor
  date_color : TermColor
  todos_color : TermColor
  chime_enabled : Bool
  api_base_url : Option String
  device_code : String
  temp_refresh_interval : ℕ
  todo_ip_filter : Option String
  todo_limit : Option ℕ
  main_window_percent : ℕ

/-- The mutable locals the argument loop of `parse_args` can touch. -/
structure ArgState where
  time_scale_x : ℕ
  time_scale_y : ℕ
  date_scale_x : ℕ
  time_color : TermColor
  date_color : TermColor
  todos_color : TermColor

/-- The `while i < args.len()` loop of `parse_args` (config.rs lines
81-119): a flag with a following value consumes both tokens. -/
def argsLoop : List String → ArgState → ArgState
  | [], st => st
  | a :: rest, st =>
    if a = "--scale" then
      match rest with
      | [] => st
      | v :: rest2 =>
        argsLoop rest2 (match parse_u16 v with
          | some n =>
            let n1 := max n 1
            { st with time_scale_x := n1, time_scale_y := n1,
                      date_scale_x := max (n1 - 1) 1 }
          | none => st)
    else if a = "--time-scale-x" then
      match rest with
      | [] => st
      | v :: rest2 =>
        argsLoop rest2 (match parse_u16 v with
          | some n => { st with time_scale_x := max n 1 }
          | none => st)
    else if a = "--time-scale-y" then
      match rest with
      | [] => st
      | v :: rest2 =>
        argsLoop rest2 (match parse_u16 v with
          | some n => { st with time_scale_y := max n 1 }
          | none => st)
    else if a = "--date-scale-x" then
      match rest with
      | [] => st
      | v :: rest2 =>
        argsLoop rest2 (match parse_u16 v with
          | some n => { st with date_scale_x := max n 1 }
          | none => st)
    else if a = "--time-color" then
      match rest with
      | [] => st
      | v :: rest2 =>
        argsLoop rest2 (match parse_color v with
          | some c => { st with time_color := c }
          | none => st)
    else if a = "--date-color" then
      match rest with
      | [] => st
      | v :: rest2 =>
        argsLoop rest2 (match parse_color v with
          | some c => { st with date_color := c }
          | none => st)
    else if a = "--todos-color" then
      match rest with
      | [] => st
      | v :: rest2 =>
        argsLoop rest2 (match parse_color v with
          | some c => { st with todos_color := c }
          | none => st)
    else argsLoop rest st

/-- `parse_args` (config.rs lines 52-136): defaults, then the file config
(if the YAML loaded), then the display-related command-line flags.
`yaml = none` models a missing or unparsable configuration file. -/
def parse_args (yaml : Option YamlMap) (args : List String) : Config :=
  let fileCfg := yaml.map load_yaml_config
  let st := argsLoop args
    { time_scale_x := 2, time_scale_y := 2, date_scale_x := 1,
      time_color := .white, date_color := .yellow, todos_color := .white }
  { time_scale_x := st.time_scale_x
    time_scale_y := st.time_scale_y
    date_scale_x := st.date_scale_x
    time_color := st.time_color
    date_color := st.date_color
    todos_color := st.todos_color
    chime_enabled := true
    api_base_url := fileCfg.bind (fun fc => fc.api_base_url)
    device_code := (fileCfg.bind (fun fc => fc.device_code)).getD "SENS-FARM01"
    temp_refresh_interval := (fileCfg.bind (fun fc => fc.temp_refresh_interval)).getD 5
    todo_ip_filter := fileCfg.bind (fun fc => fc.todo_ip_filter)
    todo_limit := none
    main_window_percent :=
      match fileCfg with
      | some fc => fc.main_window_percent
      | none => 70 }

/-- The scale invariant of the argument loop. -/
def ScaleInv (st : ArgState) : Prop :=
  1 ≤ st.time_scale_x ∧ 1 ≤ st.time_scale_y ∧ 1 ≤ st.date_scale_x

theorem scaleInv_argsLoop : ∀ (n : ℕ) (args : List String), args.length ≤ n →
    ∀ st : ArgState, ScaleInv st → ScaleInv (argsLoop args st) := by
  intro n
  induction n with
  | zero =>
    intro args hlen st hinv
    have h : args = [] := List.eq_nil_of_length_eq_zero (Nat.le_zero.mp hlen)
    rw [h]
    exact hinv
  | succ n ih =>
    intro args hlen st hinv
    match args with
    | [] => exact hinv
    | a :: rest =>
      have hrest : rest.length ≤ n := by
        simp only [List.length_cons] at hlen
        omega
      rw [argsLoop.eq_def]
      simp only
      split_ifs
      all_goals first
        | exact ih rest hrest st hinv
        | (cases rest with
           | nil => exact hinv
           | cons v rest2 =>
             have hr2 : rest2.length ≤ n := by
               simp only [List.length_cons] at hrest
               omega
             refine ih rest2 hr2 _ ?_
             split
             all_goals first
               | exact hinv
               | exact ⟨Nat.le_max_right _ 1, hinv.2.1, hinv.2.2⟩
               | exact ⟨hinv.1, Nat.le_max_right _ 1, hinv.2.2⟩
               | exact ⟨hinv.1, hinv.2.1, Nat.le_max_right _ 1⟩
               | exact ⟨Nat.le_max_right _ 1, Nat.le_max_right _ 1,
                   Nat.le_max_right _ 1⟩)

/-- A YAML oracle whose only entry is `main_window_percent: 200`. -/
def percent200Yaml : YamlMap :=
  { getStr := fun _ => none
    getI64 := fun k => if k = "main_window_percent" then some 200 else none }

/-- C7 counterexample: the claim says every resolved Configuration has its
main-window split percentage in [0, 100]; a configuration file carrying
`main_window_percent: 200` resolves to a Configuration whose split
percentage is 200. -/
theorem C7_counterexample :
    (parse_args (some percent200Yaml) []).main_window_percent = 200
      ∧ ¬(parse_args (some percent200Yaml) []).main_window_percent ≤ 100 := by
  constructor
  · rfl
  · intro h
    rw [show (parse_args (some percent200Yaml) []).main_window_percent = 200 from rfl] at h
    omega

/-- C7 (amended): every Configuration produced by the resolver has all
scale factors ≥ 1, but the main-window split percentage is not clamped to
[0, 100] — it is whatever positive value the file supplies (truncated to
`u16`), defaulting to 80 when a file is present without the key and 70
with no file.  During file-config loading, numeric fields that are
non-positive or unparsable are treated as absent for that field only,
never panicking, and string fields are trimmed and treated as absent when
empty after trimming. -/
theorem C7_config_amended (yaml : Option YamlMap) (args : List String)
    (m : YamlMap) (k : String) :
    1 ≤ (parse_args yaml args).time_scale_x
    ∧ 1 ≤ (parse_args yaml args).time_scale_y
    ∧ 1 ≤ (parse_args yaml args).date_scale_x
    ∧ (∀ n : ℤ, m.getI64 k = some n → n ≤ 0 → yamlGetPos m k = none)
    ∧ (m.getI64 k = none → yamlGetPos m k = none)
    ∧ (∀ s : String, m.getStr k = some s → trimString s = "" → yamlGetString m k = none)
    ∧ (∀ v : String, yamlGetString m k = some v →
        ∃ s, m.getStr k = some s ∧ v = trimString s ∧ v ≠ "") := by
  have hinv : ScaleInv (argsLoop args
      { time_scale_x := 2, time_scale_y := 2, date_scale_x := 1,
        time_color := .white, date_color := .yellow, todos_color := .white }) :=
    scaleInv_argsLoop args.length args le_rfl _ (by refine ⟨?_, ?_, ?_⟩ <;> norm_num)
  refine ⟨hinv.1, hinv.2.1, hinv.2.2, ?_, ?_, ?_, ?_⟩
  · intro n hn hle
    simp [yamlGetPos, hn, not_lt.mpr hle]
  · intro hn
    simp [yamlGetPos, hn]
  · intro s hs ht
    simp [yamlGetString, hs, ht]
  · intro v hv
    simp only [yamlGetString, Option.bind_eq_some] at hv
    obtain ⟨s, hs, hv⟩ := hv
    refine ⟨s, hs, ?_⟩
    by_cases h : trimString s = ""
    · rw [if_pos h] at hv
      exact absurd hv (Option.noConfusion)
    · rw [if_neg h] at hv
      have hveq : v = trimString s := (Option.some_inj.mp hv).symm
      refine ⟨hveq, ?_⟩
      rw [hveq]
      exact h

/-- A YAML oracle with one non-positive numeric entry and one
blank-after-trim string entry. -/
def invalidFieldsYaml : YamlMap :=
  { getStr := fun k => if k = "todos_file" then some "   " else none
    getI64 := fun k => if k = "temp_refresh_interval" then some (-3) else none }

/-- C7 witness: the scale invariant at the default configuration, and the
absent-field treatment on a concrete invalid file. -/
theorem C7_witness :
    1 ≤ (parse_args none []).time_scale_x
    ∧ yamlGetPos invalidFieldsYaml "temp_refresh_interval" = none
    ∧ yamlGetString invalidFieldsYaml "todos_file" = none :=
  ⟨(C7_config_amended none [] invalidFieldsYaml "x").1,
   (C7_config_amended none [] invalidFieldsYaml
     "temp_refresh_interval").2.2.2.1 (-3) rfl (by norm_num),
   (C7_config_amended none [] invalidFieldsYaml
     "todos_file").2.2.2.2.2.1 "   " rfl (by decide)⟩

/-! ## Refresh scheduler and chime (main.rs)

`Instant`s are modelled as natural-number timestamps in seconds;
`duration_since` is truncated subtraction (the source only ever subtracts
an earlier instant from a later one). -/

/-- `TEMP_FETCH_INTERVAL` (main.rs line 61): a fixed 10 seconds. -/
def TEMP_FETCH_INTERVAL : ℕ := 10

/-- The todo refresh interval (main.rs line 151): a fixed 5 seconds. -/
def TODOS_REFRESH_INTERVAL : ℕ := 5

/-- The `App` state fields the scheduler touches (main.rs lines 66-73). -/
structure AppState where
  last_temp_fetch : Option ℕ
  cached_temp : Option String
  todos : List String
  config : Config
  last_chime_hour : Option ℕ
  last_todos_refresh : Option ℕ

/-- The due-check of `App::temperature` (main.rs lines 89-92):
stale when no fetch has completed, or when the elapsed time reaches
`TEMP_FETCH_INTERVAL`. -/
def needs_temp_fetch (last : Option ℕ) (now : ℕ) : Bool :=
  match last with
  | none => true
  | some ts => TEMP_FETCH_INTERVAL ≤ now - ts

/-- The todo due-check of the main loop (main.rs lines 149-152). -/
def needs_todos_refresh (last : Option ℕ) (now : ℕ) : Bool :=
  match last with
  | none => true
  | some ts => TODOS_REFRESH_INTERVAL ≤ now - ts

/-- One call of `App::temperature` (main.rs lines 87-103), with the chain's
outcome supplied as `fetchResult`; returns the new state and the string
served to the caller. -/
def temperature_step (fetchResult : Option String) (app : AppState) (now : ℕ) :
    AppState × String :=
  if needs_temp_fetch app.last_temp_fetch now then
    let cached := some (fetchResult.getD "--")
    ({ app with cached_temp := cached, last_temp_fetch := some now },
     cached.getD "--")
  else
    (app, app.cached_temp.getD "--")

/-- The 'r' key handler (main.rs lines 170-174): reload todos and clear the
temperature fetch timestamp. -/
def manual_refresh (app : AppState) (newTodos : List String) : AppState :=
  { app with todos := newTodos, last_temp_fetch := none }

/-- `chime_hour`'s pulse count (main.rs lines 747-749): two at 12, else one. -/
def chime_pulses (hour : ℕ) : ℕ := if hour = 12 then 2 else 1

/-- The chime guard of the main loop (main.rs lines 136-144). -/
def chime_fires (enabled : Bool) (last : Option ℕ) (hour minute second : ℕ) : Bool :=
  enabled && minute == 0 && second == 0 && !(last == some hour)

/-- One chime check: fire (recording the hour) or leave state unchanged;
returns the new recorded hour and the number of pulses emitted. -/
def chime_step (enabled : Bool) (last : Option ℕ) (hour minute second : ℕ) :
    Option ℕ × ℕ :=
  if chime_fires enabled last hour minute second then (some hour, chime_pulses hour)
  else (last, 0)

/-- Number of chime firings over a sequence of (hour, minute, second) ticks. -/
def chime_fire_count (enabled : Bool) : Option ℕ → List (ℕ × ℕ × ℕ) → ℕ
  | _, [] => 0
  | last, (h, m, s) :: rest =>
    let r := chime_step enabled last h m s
    (if chime_fires enabled last h m s then 1 else 0) + chime_fire_count enabled r.1 rest

/-- C2: the temperature due-check reports stale iff no fetch attempt has
ever completed or now − last_fetch_time ≥ the interval; every completed
fetch attempt (success or chain failure alike) resets last_fetch_time to
the attempt time, so after any attempt the chain is not re-invoked until a
full interval elapses; and a manual refresh (the 'r' key) always forces
the next due-check to report stale. -/
theorem C2_temp_cache (app : AppState) (now : ℕ) (r : Option String) :
    (needs_temp_fetch app.last_temp_fetch now = true ↔
      app.last_temp_fetch = none ∨
        ∃ ts, app.last_temp_fetch = some ts ∧ TEMP_FETCH_INTERVAL ≤ now - ts)
    ∧ (needs_temp_fetch app.last_temp_fetch now = true →
        (temperature_step r app now).1.last_temp_fetch = some now)
    ∧ (∀ now2 : ℕ, needs_temp_fetch app.last_temp_fetch now = true →
        now2 - now < TEMP_FETCH_INTERVAL →
        needs_temp_fetch (temperature_step r app now).1.last_temp_fetch now2 = false)
    ∧ (∀ (todos : List String) (now2 : ℕ),
        needs_temp_fetch (manual_refresh app todos).last_temp_fetch now2 = true) := by
  refine ⟨?_, ?_, ?_, ?_⟩
  · cases h : app.last_temp_fetch with
    | none => simp [needs_temp_fetch]
    | some ts => simp [needs_temp_fetch]
  · intro h
    rw [temperature_step, if_pos h]
  · intro now2 h hlt
    rw [temperature_step, if_pos h]
    simp only [needs_temp_fetch]
    simpa using Nat.not_le.mpr hlt
  · intro todos now2
    rfl

/-- The default configuration and an initial application state. -/
def cfgDefault : Config := parse_args none []

/-- Initial `App` state (main.rs `App::new` with todos resolved empty). -/
def app0 : AppState :=
  { last_temp_fetch := none, cached_temp := none, todos := [],
    config := cfgDefault, last_chime_hour := none, last_todos_refresh := none }

/-- C2 witness: on a fresh state the due-check fires at time 100; after the
attempt completes, the check at time 105 (within the interval) is quiet,
and a manual refresh makes the check at 105 fire again. -/
theorem C2_witness :
    needs_temp_fetch (temperature_step (some "21.0℃") app0 100).1.last_temp_fetch
      105 = false
    ∧ needs_temp_fetch (manual_refresh app0 []).last_temp_fetch 105 = true :=
  ⟨(C2_temp_cache app0 100 (some "21.0℃")).2.2.1 105 (by decide) (by decide),
   (C2_temp_cache app0 100 (some "21.0℃")).2.2.2 [] 105⟩

/-- C5: the chime fires iff chime is enabled, the wall-clock minute and
second are both exactly zero, and the recorded last-chime hour differs
from the current hour; firing records the current hour, after which no
tick in the same hour fires again; it emits two pulses when the hour is 12
and exactly one at every other hour. -/
theorem C5_chime (enabled : Bool) (last : Option ℕ) (h m s : ℕ)
    (ticks : List (ℕ × ℕ × ℕ)) :
    (chime_fires enabled last h m s = true ↔
      enabled = true ∧ m = 0 ∧ s = 0 ∧ last ≠ some h)
    ∧ (chime_fires enabled last h m s = true →
        (chime_step enabled last h m s).1 = some h)
    ∧ ((∀ t ∈ ticks, t.1 = h) → chime_fire_count enabled (some h) ticks = 0)
    ∧ chime_pulses 12 = 2
    ∧ (h ≠ 12 → chime_pulses h = 1) := by
  refine ⟨?_, ?_, ?_, rfl, ?_⟩
  · simp [chime_fires, and_assoc]
  · intro hf
    rw [chime_step, if_pos hf]
  · induction ticks with
    | nil => intro _; rfl
    | cons t rest ih =>
      intro hall
      obtain ⟨h1, m1, s1⟩ := t
      have hh : h1 = h := hall (h1, m1, s1) (List.mem_cons_self _ _)
      have hfire : chime_fires enabled (some h) h1 m1 s1 = false := by
        simp [chime_fires, hh]
      rw [chime_fire_count, hfire]
      simp only [Bool.false_eq_true, if_false, Nat.zero_add]
      rw [chime_step, hfire]
      simp only [Bool.false_eq_true, if_false]
      exact ih (fun t ht => hall t (List.mem_cons_of_mem _ ht))
  · intro hne
    simp [chime_pulses, hne]

/-- C5 witness: at a fresh hour 12 with minute and second zero the chime
fires with two pulses and records hour 12; later ticks in the same hour,
including another minute-zero second-zero observation, do not fire. -/
theorem C5_witness :
    chime_fires true none 12 0 0 = true
    ∧ (chime_step true none 12 0 0).1 = some 12
    ∧ chime_fire_count true (some 12) [(12, 0, 0), (12, 0, 30)] = 0
    ∧ chime_pulses 12 = 2 :=
  ⟨(C5_chime true none 12 0 0 []).1.mpr ⟨rfl, rfl, rfl, by simp⟩,
   (C5_chime true none 12 0 0 []).2.1 (by decide),
   (C5_chime true (some 12) 12 0 0 [(12, 0, 0), (12, 0, 30)]).2.2.1 (by decide),
   (C5_chime true none 12 0 0 []).2.2.2.1⟩

/-- C8 counterexample: the claim says the temperature due-check uses the
configurable `temp_refresh_interval` (default 5) from the Configuration,
becoming stale after exactly that many seconds.  The resolved default
Configuration carries interval 5, yet the due-check is still quiet 5
seconds after a fetch and only fires at the fixed 10-second constant. -/
theorem C8_counterexample :
    (parse_args none []).temp_refresh_interval = 5
    ∧ needs_temp_fetch (some 0) 5 = false
    ∧ needs_temp_fetch (some 0) 10 = true := by
  refine ⟨rfl, by decide, by decide⟩

/-- C8 (amended): the temperature due-check uses the fixed 10-second
constant `TEMP_FETCH_INTERVAL`, not the Configuration's
`temp_refresh_interval` (which is parsed from the file into the
Configuration but never consulted by the due-check); the todo due-check
uses a fixed 5 seconds; both report stale when no fetch has happened. -/
theorem C8_intervals_amended (args : List String) (m : YamlMap) (n : ℤ)
    (now ts : ℕ) :
    (needs_temp_fetch (some ts) now = true ↔ TEMP_FETCH_INTERVAL ≤ now - ts)
    ∧ TEMP_FETCH_INTERVAL = 10
    ∧ (needs_todos_refresh (some ts) now = true ↔ TODOS_REFRESH_INTERVAL ≤ now - ts)
    ∧ TODOS_REFRESH_INTERVAL = 5
    ∧ needs_temp_fetch none now = true
    ∧ needs_todos_refresh none now = true
    ∧ (m.getI64 "temp_refresh_interval" = some n → 0 < n →
        (parse_args (some m) args).temp_refresh_interval = n.toNat) := by
  refine ⟨?_, rfl, ?_, rfl, rfl, rfl, ?_⟩
  · simp [needs_temp_fetch]
  · simp [needs_todos_refresh]
  · intro hn hpos
    simp [parse_args, load_yaml_config, yamlGetU64, yamlGetPos, hn, hpos]

/-- A YAML oracle whose only entry is `temp_refresh_interval: 7`. -/
def interval7Yaml : YamlMap :=
  { getStr := fun _ => none
    getI64 := fun k => if k = "temp_refresh_interval" then some 7 else none }

/-- C8 witness: a file specifying `temp_refresh_interval: 7` resolves to a
Configuration carrying 7, while the due-check is governed by the constant
10 regardless. -/
theorem C8_witness :
    (parse_args (some interval7Yaml) []).temp_refresh_interval = (7 : ℤ).toNat
    ∧ needs_temp_fetch (some 0) 9 = false :=
  ⟨(C8_intervals_amended [] interval7Yaml 7 9 0).2.2.2.2.2.2 rfl (by norm_num),
   by decide⟩

/-! ## Temperature provider chain (api.rs `fetch_temperature_from_config`,
lines 90-124)

The network is an oracle: `fetchTemp base device` is the outcome of
`fetch_temperature_api(base, device)` (already `none` on transport error,
non-zero payload code, or empty rows), `fallbackTemp` the outcome of the
public `wttr.in` query after its trim/normalize post-processing, and
`yaml` the outcome of the draw-time `load_yaml_config()` re-read. -/

structure TempEnv where
  yaml : Option YamlMap
  fetchTemp : String → String → Option String
  fallbackTemp : Option String

/-- The chain's three steps, as labels for the invocation trace. -/
inductive TempProvider
  | primary
  | fileRetry
  | publicFallback
deriving DecidableEq

/-- Step 1's outcome: the configured endpoint, when one is configured. -/
def primaryResult (env : TempEnv) (config : Config) : Option String :=
  config.api_base_url.bind (fun b => env.fetchTemp b config.device_code)

/-- Step 2's outcome: the re-read file configuration's endpoint, with the
device code defaulting to "SENS-FARM01". -/
def fileRetryResult (env : TempEnv) : Option String :=
  (env.yaml.map load_yaml_config).bind (fun fc =>
    fc.api_base_url.bind (fun b =>
      env.fetchTemp b (fc.device_code.getD "SENS-FARM01")))

/-- `fetch_temperature_from_config` with an invocation trace: which
providers were actually queried, in order, and the returned value. -/
def fetch_temperature_trace (env : TempEnv) (config : Config) :
    List TempProvider × Option String :=
  let t1 : List TempProvider :=
    if config.api_base_url.isSome then [.primary] else []
  match primaryResult env config with
  | some t => (t1, some t)
  | none =>
    let t2 : List TempProvider :=
      if ((env.yaml.map load_yaml_config).bind (fun fc => fc.api_base_url)).isSome
      then [.fileRetry] else []
    match fileRetryResult env with
    | some t => (t1 ++ t2, some t)
    | none => (t1 ++ t2 ++ [.publicFallback], env.fallbackTemp)

/-- The chain's result, as the caller sees it. -/
def fetch_temperature_from_config (env : TempEnv) (config : Config) :
    Option String :=
  (fetch_temperature_trace env config).2

/-! ## Todo provider chain (api.rs `load_todos_from_config`, lines 127-162)
and todo widget (ui.rs `draw_todos_widget`, lines 137-176) -/

structure TodoEnv where
  yaml : Option YamlMap
  fetchTodos : String → ℕ → Option (List String)
  readFile : String → Option String

/-- Split a character list at every newline (keeping empty pieces). -/
def splitNewlines : List Char → List (List Char)
  | [] => [[]]
  | c :: rest =>
    let r := splitNewlines rest
    if c = '\n' then [] :: r
    else
      match r with
      | [] => [[c]]
      | h :: t => (c :: h) :: t

/-- Rust's `str::lines`: split on newline, drop one trailing empty piece,
strip a trailing carriage return from each line. -/
def rustLines (l : List Char) : List (List Char) :=
  if l = [] then []
  else
    let parts := splitNewlines l
    let parts := if parts.getLast? = some [] then parts.dropLast else parts
    parts.map (fun p => if p.getLast? = some '\r' then p.dropLast else p)

/-- The shared todo-file post-processing:
`content.lines().map(trim).filter(non-empty).collect()`. -/
def processTodoLines (content : String) : List String :=
  (((rustLines content.toList).map trimChars).filter (fun p => p ≠ [])).map
    (fun p => String.mk p)

/-- The final fallback: the default `todos.txt` in the working directory,
empty list when unreadable. -/
def readDefaultTodos (env : TodoEnv) : List String :=
  match env.readFile "todos.txt" with
  | some content => processTodoLines content
  | none => []

/-- The API step of the todo chain: base URL from the file config or the
snapshot, limit likewise (default 4); absent base URL yields no attempt. -/
def todoApiStep (env : TodoEnv) (config : Config) (cfg : FileConfig) :
    Option (List String) :=
  match cfg.api_base_url.orElse (fun _ => config.api_base_url) with
  | some b =>
    env.fetchTodos b ((cfg.todo_limit.orElse (fun _ => config.todo_limit)).getD 4)
  | none => none

/-- `load_todos_from_config`: the draw-time YAML re-read, then the API
step, then the file named in the YAML, then the default file, else the
empty list. -/
def load_todos_from_config (env : TodoEnv) (config : Config) : List String :=
  match env.yaml with
  | some m =>
    let cfg := load_yaml_config m
    match todoApiStep env config cfg with
    | some list => list
    | none =>
      match cfg.todos_file with
      | some path =>
        match env.readFile path with
        | some content => processTodoLines content
        | none => readDefaultTodos env
      | none => readDefaultTodos env
  | none => readDefaultTodos env

/-- Usable width of the todo region: `((width as f64) * 0.8).round()`,
capped at the width (`0.8 * w` is never a half-integer, so exact rational
arithmetic agrees with `f64` here). -/
def usableTodos (width : ℕ) : ℕ :=
  let u := (roundAway ((4 / 5 : ℚ) * width)).toNat
  if u > width then width else u

/-- Left padding of the todo region. -/
def todosPad (width : ℕ) : ℕ := (width - usableTodos width) / 2

/-- The truncation closure of `draw_todos_widget`: cut to `max_chars`
characters and append an ellipsis when over the limit. -/
def truncateTodo (maxChars : Option ℕ) (s : String) : String :=
  match maxChars with
  | some m => if m < s.toList.length then String.mk (s.toList.take m) ++ "…" else s
  | none => s

/-- The truncation limit read from the configuration file at draw time
(ui.rs lines 149-152): absent when the file fails to load. -/
def drawMaxChars (yaml : Option YamlMap) : Option ℕ :=
  match yaml with
  | some m => (load_yaml_config m).todo_task_max_chars
  | none => none

/-- The text content of the rendered todo list items (ui.rs lines
163-173): the "(no todos)" placeholder for an empty list, else each todo
truncated, all prefixed by the centering pad. -/
def draw_todos_items (yaml : Option YamlMap) (width : ℕ)
    (todos : List String) : List String :=
  let padStr := String.mk (List.replicate (todosPad width) ' ')
  if todos.isEmpty then [padStr ++ "(no todos)"]
  else todos.map (fun t => padStr ++ truncateTodo (drawMaxChars yaml) t)

theorem fileRetry_some_baseSome {env : TempEnv} {t : String}
    (h : fileRetryResult env = some t) :
    ((env.yaml.map load_yaml_config).bind (fun fc => fc.api_base_url)).isSome = true := by
  rcases henv : env.yaml with - | m
  · rw [fileRetryResult, henv] at h
    simp at h
  · rw [fileRetryResult, henv] at h
    rcases hb : (load_yaml_config m).api_base_url with - | b
    · simp [hb] at h
    · simp [henv, hb]

theorem primary_some_baseSome {env : TempEnv} {config : Config} {t : String}
    (h : primaryResult env config = some t) :
    config.api_base_url.isSome = true := by
  rcases hb : config.api_base_url with - | b
  · rw [primaryResult, hb] at h
    simp at h
  · rfl

/-- C1: the temperature provider chain tries providers in strict priority
order — the configured primary endpoint first; if the primary base URL was
not configured or its fetch failed, the re-read file configuration's base
URL/device-code pair; only then the public fallback.  No provider is
queried twice within a pass, and once a provider succeeds no later
provider is invoked. -/
theorem C1_temp_chain (env : TempEnv) (config : Config) :
    List.Sublist (fetch_temperature_trace env config).1
        [TempProvider.primary, TempProvider.fileRetry, TempProvider.publicFallback]
    ∧ (fetch_temperature_trace env config).2 =
        (primaryResult env config).orElse (fun _ =>
          (fileRetryResult env).orElse (fun _ => env.fallbackTemp))
    ∧ (∀ t, primaryResult env config = some t →
        fetch_temperature_trace env config = ([TempProvider.primary], some t))
    ∧ (config.api_base_url = none →
        TempProvider.primary ∉ (fetch_temperature_trace env config).1)
    ∧ (∀ t, primaryResult env config = none → fileRetryResult env = some t →
        TempProvider.publicFallback ∉ (fetch_temperature_trace env config).1
          ∧ (fetch_temperature_trace env config).2 = some t)
    ∧ (TempProvider.publicFallback ∈ (fetch_temperature_trace env config).1 ↔
        primaryResult env config = none ∧ fileRetryResult env = none) := by
  cases hP : primaryResult env config with
  | some t =>
    have hb1 := primary_some_baseSome hP
    have htr : fetch_temperature_trace env config = ([TempProvider.primary], some t) := by
      rw [fetch_temperature_trace, hP, hb1]
      simp
    rw [htr]
    refine ⟨?_, by simp, ?_, ?_, ?_, by simp⟩
    · exact (by decide :
        List.Sublist [TempProvider.primary]
          [TempProvider.primary, TempProvider.fileRetry, TempProvider.publicFallback])
    · intro t' ht'
      injection ht' with h
      rw [h]
    · intro hnone
      rw [hnone] at hb1
      exact absurd hb1 (by simp)
    · intro t' hn
      exact absurd hn (by simp)
  | none =>
    cases hF : fileRetryResult env with
    | some t =>
      have hb2 := fileRetry_some_baseSome hF
      have htr : fetch_temperature_trace env config =
          ((if config.api_base_url.isSome then [TempProvider.primary] else []) ++
            [TempProvider.fileRetry], some t) := by
        rw [fetch_temperature_trace, hP, hF, hb2]
        simp
      rw [htr]
      cases hb1 : config.api_base_url.isSome with
      | false =>
        simp only [hb1, Bool.false_eq_true, if_false, List.nil_append]
        refine ⟨?_, by simp, ?_, ?_, ?_, by simp⟩
        · exact (by decide :
            List.Sublist [TempProvider.fileRetry]
              [TempProvider.primary, TempProvider.fileRetry,
                TempProvider.publicFallback])
        · intro t' ht'
          exact absurd ht' (by simp)
        · intro _
          decide
        · intro t' _ hF'
          injection hF' with h
          exact ⟨by decide, by rw [h]⟩
      | true =>
        simp only [hb1, if_true]
        refine ⟨?_, by simp, ?_, ?_, ?_, by simp⟩
        · exact (by decide :
            List.Sublist [TempProvider.primary, TempProvider.fileRetry]
              [TempProvider.primary, TempProvider.fileRetry,
                TempProvider.publicFallback])
        · intro t' ht'
          exact absurd ht' (by simp)
        · intro hnone
          rw [hnone] at hb1
          exact absurd hb1 (by simp)
        · intro t' _ hF'
          injection hF' with h
          exact ⟨by decide, by rw [h]⟩
    | none =>
      have htr : fetch_temperature_trace env config =
          ((if config.api_base_url.isSome then [TempProvider.primary] else []) ++
            (if ((env.yaml.map load_yaml_config).bind
                (fun fc => fc.api_base_url)).isSome
             then [TempProvider.fileRetry] else []) ++
            [TempProvider.publicFallback], env.fallbackTemp) := by
        rw [fetch_temperature_trace, hP, hF]
      rw [htr]
      cases hb1 : config.api_base_url.isSome with
      | false =>
        cases hb2 : ((env.yaml.map load_yaml_config).bind
            (fun fc => fc.api_base_url)).isSome with
        | false =>
          simp only [hb1, hb2, Bool.false_eq_true, if_false, List.nil_append]
          refine ⟨?_, by simp, ?_, by intro _; decide, ?_, by simp⟩
          · exact (by decide :
              List.Sublist [TempProvider.publicFallback]
                [TempProvider.primary, TempProvider.fileRetry,
                  TempProvider.publicFallback])
          · intro t' ht'
            exact absurd ht' (by simp)
          · intro t' _ hF'
            exact absurd hF' (by simp)
        | true =>
          simp only [hb1, hb2, Bool.false_eq_true, if_false, if_true,
            List.nil_append]
          refine ⟨?_, by simp, ?_, by intro _; decide, ?_, by simp⟩
          · exact (by decide :
              List.Sublist [TempProvider.fileRetry, TempProvider.publicFallback]
                [TempProvider.primary, TempProvider.fileRetry,
                  TempProvider.publicFallback])
          · intro t' ht'
            exact absurd ht' (by simp)
          · intro t' _ hF'
            exact absurd hF' (by simp)
      | true =>
        cases hb2 : ((env.yaml.map load_yaml_config).bind
            (fun fc => fc.api_base_url)).isSome with
        | false =>
          simp only [hb1, hb2, Bool.false_eq_true, if_false, if_true,
            List.append_nil]
          refine ⟨?_, by simp, ?_, ?_, ?_, by simp⟩
          · exact (by decide :
              List.Sublist [TempProvider.primary, TempProvider.publicFallback]
                [TempProvider.primary, TempProvider.fileRetry,
                  TempProvider.publicFallback])
          · intro t' ht'
            exact absurd ht' (by simp)
          · intro hnone
            rw [hnone] at hb1
            exact absurd hb1 (by simp)
          · intro t' _ hF'
            exact absurd hF' (by simp)
        | true =>
          simp only [hb1, hb2, if_true]
          refine ⟨?_, by simp, ?_, ?_, ?_, by simp⟩
          · exact (by decide :
              List.Sublist [TempProvider.primary, TempProvider.fileRetry,
                  TempProvider.publicFallback]
                [TempProvider.primary, TempProvider.fileRetry,
                  TempProvider.publicFallback])
          · intro t' ht'
            exact absurd ht' (by simp)
          · intro hnone
            rw [hnone] at hb1
            exact absurd hb1 (by simp)
          · intro t' _ hF'
            exact absurd hF' (by simp)

/-- An environment in which the primary temperature endpoint answers. -/
def envPrimaryOk : TempEnv :=
  { yaml := none, fetchTemp := fun _ _ => some "23.0℃", fallbackTemp := none }

/-- A snapshot with a configured primary base URL. -/
def cfgPrimary : Config := { cfgDefault with api_base_url := some "http://sensor" }

/-- C1 witness: with the primary endpoint configured and answering, the
trace is exactly one primary invocation and its value is returned. -/
theorem C1_witness :
    fetch_temperature_trace envPrimaryOk cfgPrimary =
      ([TempProvider.primary], some "23.0℃") :=
  (C1_temp_chain envPrimaryOk cfgPrimary).2.2.1 "23.0℃" rfl

theorem todoApiStep_none {env : TodoEnv} {config : Config} {cfg : FileConfig}
    (hf : ∀ b l, env.fetchTodos b l = none) :
    todoApiStep env config cfg = none := by
  rw [todoApiStep]
  cases cfg.api_base_url.orElse (fun _ => config.api_base_url) with
  | some b => exact hf b _
  | none => rfl

/-- C6: no failure inside either provider chain surfaces as an error —
when every temperature provider fails, the temperature operation serves
the sentinel "--"; when every todo provider fails, the todo resolution is
the empty list, and the widget renders the "(no todos)" placeholder for an
empty list. -/
theorem C6_graceful_failure (env : TodoEnv) (config : Config) (app : AppState)
    (now : ℕ) (yaml : Option YamlMap) (w : ℕ) :
    ((∀ b l, env.fetchTodos b l = none) → (∀ p, env.readFile p = none) →
      load_todos_from_config env config = [])
    ∧ (needs_temp_fetch app.last_temp_fetch now = true →
        (temperature_step none app now).2 = "--")
    ∧ draw_todos_items yaml w [] =
        [String.mk (List.replicate (todosPad w) ' ') ++ "(no todos)"] := by
  refine ⟨?_, ?_, rfl⟩
  · intro hf hr
    have hdef : readDefaultTodos env = [] := by
      rw [readDefaultTodos, hr]
    cases henv : env.yaml with
    | none =>
      rw [load_todos_from_config, henv]
      exact hdef
    | some m =>
      rw [load_todos_from_config, henv]
      show (match todoApiStep env config (load_yaml_config m) with
        | some list => list
        | none =>
          match (load_yaml_config m).todos_file with
          | some path =>
            match env.readFile path with
            | some content => processTodoLines content
            | none => readDefaultTodos env
          | none => readDefaultTodos env) = []
      rw [todoApiStep_none hf]
      cases hfile : (load_yaml_config m).todos_file with
      | none => exact hdef
      | some path =>
        show (match env.readFile path with
          | some content => processTodoLines content
          | none => readDefaultTodos env) = []
        rw [hr path]
        exact hdef
  · intro h
    rw [temperature_step, if_pos h]
    rfl

/-- A todo environment in which every provider fails. -/
def envAllFail : TodoEnv :=
  { yaml := none, fetchTodos := fun _ _ => none, readFile := fun _ => none }

/-- C6 witness: all providers failing yields the empty todo list, the
sentinel temperature on a due fetch, and the placeholder item. -/
theorem C6_witness :
    load_todos_from_config envAllFail cfgDefault = []
    ∧ (temperature_step none app0 0).2 = "--" :=
  ⟨(C6_graceful_failure envAllFail cfgDefault app0 0 none 0).1
      (fun _ _ => rfl) (fun _ => rfl),
   (C6_graceful_failure envAllFail cfgDefault app0 0 none 0).2.1 rfl⟩

/-- A YAML oracle whose only entry is `todo_task_max_chars: 1`. -/
def maxChars1Yaml : YamlMap :=
  { getStr := fun _ => none
    getI64 := fun k => if k = "todo_task_max_chars" then some 1 else none }

/-- A YAML oracle agreeing with `maxChars1Yaml` on `todo_task_max_chars`
but differing elsewhere. -/
def maxChars1Yaml2 : YamlMap :=
  { getStr := fun k => if k = "device_code" then some "X9" else none
    getI64 := fun k => if k = "todo_task_max_chars" then some 1 else none }

theorem todosPad_zero : todosPad 0 = 0 := by
  simp [todosPad, usableTodos, roundAway_zero]

/-- C9 counterexample: the claim says that for a fixed Configuration
snapshot and fixed cached todo list, two renderings of the todo widget
under different configuration-file contents produce identical output.
With the same snapshot and the same cached list ["abc"], a draw-time file
carrying `todo_task_max_chars: 1` renders "a…" while a missing file
renders "abc". -/
theorem C9_counterexample :
    draw_todos_items (some maxChars1Yaml) 0 ["abc"] = ["a…"]
    ∧ draw_todos_items none 0 ["abc"] = ["abc"]
    ∧ draw_todos_items (some maxChars1Yaml) 0 ["abc"] ≠
        draw_todos_items none 0 ["abc"] := by
  have h1 : draw_todos_items (some maxChars1Yaml) 0 ["abc"] = ["a…"] := by
    rw [draw_todos_items]
    simp [todosPad_zero, drawMaxChars, load_yaml_config, yamlGetUsize, yamlGetPos,
      maxChars1Yaml, truncateTodo]
    decide
  have h2 : draw_todos_items none 0 ["abc"] = ["abc"] := by
    rw [draw_todos_items]
    simp [todosPad_zero, drawMaxChars, truncateTodo]
  refine ⟨h1, h2, ?_⟩
  rw [h1, h2]
  decide

/-- C9 (amended): configuration resolution is pure given its inputs, but
the todo widget re-reads the configuration file at draw time: the
truncation limit it applies is the draw-time file's `todo_task_max_chars`,
so two renderings with a fixed snapshot and cached list coincide exactly
when the draw-time files agree on that key, and can differ otherwise. -/
theorem C9_draw_reads_file_amended (env1 env2 : Option YamlMap) (w : ℕ)
    (todos : List String) :
    (drawMaxChars env1 = drawMaxChars env2 →
      draw_todos_items env1 w todos = draw_todos_items env2 w todos)
    ∧ (∀ m : YamlMap, drawMaxChars (some m) =
        yamlGetUsize m "todo_task_max_chars")
    ∧ (todos ≠ [] → draw_todos_items env1 w todos =
        todos.map (fun t =>
          String.mk (List.replicate (todosPad w) ' ') ++
            truncateTodo (drawMaxChars env1) t)) := by
  refine ⟨?_, fun m => rfl, ?_⟩
  · intro h
    rw [draw_todos_items, draw_todos_items, h]
  · intro hne
    rw [draw_todos_items]
    simp only [List.isEmpty_eq_true]
    rw [if_neg hne]

/-- C9 witness: two files differing outside `todo_task_max_chars` render
the cached list identically. -/
theorem C9_witness :
    draw_todos_items (some maxChars1Yaml) 5 ["abc"] =
      draw_todos_items (some maxChars1Yaml2) 5 ["abc"] :=
  (C9_draw_reads_file_amended (some maxChars1Yaml) (some maxChars1Yaml2) 5
    ["abc"]).1 rfl

end TermClock
